/-
Verification of the escrow contract (src/state.rs, src/contract.rs, src/msg.rs).

Shallow embedding: amounts (Uint128) are Nat with explicit 2^128 overflow
checks where the source performs checked arithmetic; addresses and ids are
String; the key-value bucket is a function store `String → Option Escrow`;
fallible operations return Except.
-/
import Mathlib

namespace EscrowContract

/-- Uint128 overflow bound. -/
def u128Limit : Nat := 2 ^ 128

/-- cosmwasm_std::Coin — a native amount tagged by denomination. -/
structure Coin where
  denom : String
  amount : Nat
  deriving DecidableEq

/-- cw20::Cw20CoinVerified — a token-contract amount tagged by contract address. -/
structure Cw20CoinVerified where
  address : String
  amount : Nat
  deriving DecidableEq

/-- state.rs `GenericBalance`: parallel native and cw20 collections. -/
structure GenericBalance where
  native : List Coin
  cw20 : List Cw20CoinVerified
  deriving DecidableEq

/-- cw20::Balance — the funding attached to a request: either native coins
(`Balance::Native(NativeBalance(Vec<Coin>))`) or a single cw20 amount. -/
inductive Balance where
  | Native (coins : List Coin)
  | Cw20 (token : Cw20CoinVerified)
  deriving DecidableEq

/-- cw20 `Balance::is_empty`: a native balance is empty when no coin has a
nonzero amount; a cw20 balance is empty when its amount is zero. -/
def Balance.is_empty : Balance → Bool
  | .Native coins => coins.all (fun c => c.amount == 0)
  | .Cw20 token => token.amount == 0

/-- state.rs `Escrow`. -/
structure Escrow where
  arbiter : String
  recipient : String
  source : String
  end_height : Option Nat
  end_time : Option Nat
  balance : GenericBalance
  deriving DecidableEq

/-- The block context the contract reads from `Env`: `env.block.height` (u64)
and `env.block.time.nanos()` (u64 nanoseconds since epoch). -/
structure Env where
  height : Nat
  timeNanos : Nat
  deriving DecidableEq

/-- state.rs `Escrow::is_expired`: expired when the deadline height is set and
exceeded, or when the deadline time is set and `block.time.nanos() > end_time * 1000`. -/
def Escrow.is_expired (e : Escrow) (env : Env) : Bool :=
  (match e.end_height with
   | some eh => env.height > eh
   | none => false) ||
  (match e.end_time with
   | some et => env.timeNanos > et * 1000
   | none => false)

/-- Modelled from the spec: `error.rs` (the `ContractError` enum) is not under
src/; its variants are taken from spec §7 — ZeroBalance, IdAlreadyExists,
NotFound (the storage load error surfaced through `?`), Unauthorized,
Expired carrying both deadlines, and ArithmeticOverflow (the fatal
overflow of a checked amount addition, surfaced to the caller). -/
inductive ContractError where
  | ZeroBalance
  | IdAlreadyExists
  | NotFound
  | Unauthorized
  | Expired (end_height : Option Nat) (end_time : Option Nat)
  | ArithmeticOverflow
  deriving DecidableEq

/-- The transfer instructions the contract emits: `BankMsg::Send` for native
coins and `WasmMsg::Execute` wrapping `Cw20ExecuteMsg::Transfer`. -/
inductive CosmosMsg where
  | Bank (to_address : String) (amount : List Coin)
  | Wasm (contract_addr : String) (recipient : String) (amount : Nat)
  deriving DecidableEq

/-- The parts of `Response` the contract builds: messages and attributes. -/
structure Response where
  messages : List CosmosMsg
  attributes : List (String × String)
  deriving DecidableEq

/-- `Response::default()` / `Response::new()`. -/
def Response.default : Response := ⟨[], []⟩

/-- msg.rs `CreateMsg`. -/
structure CreateMsg where
  id : String
  arbiter : String
  recipient : String
  end_height : Option Nat
  end_time : Option Nat
  deriving DecidableEq

/-- msg.rs `ReceiveMsg` (the payload decoded from a cw20 Receive wrapper). -/
inductive ReceiveMsg where
  | Create (msg : CreateMsg)
  | TopUp (id : String)
  deriving DecidableEq

/-- cw20::Cw20ReceiveMsg, with the Binary payload already decoded. -/
structure Cw20ReceiveMsg where
  sender : String
  amount : Nat
  msg : ReceiveMsg
  deriving DecidableEq

/-- msg.rs `ExecuteMsg`. -/
inductive ExecuteMsg where
  | Create (msg : CreateMsg)
  | Approve (id : String)
  | Refund (id : String)
  | TopUp (id : String)
  | Receive (wrapper : Cw20ReceiveMsg)
  deriving DecidableEq

/-- `MessageInfo`: the caller and the attached native funds. -/
structure MessageInfo where
  sender : String
  funds : List Coin
  deriving DecidableEq

/-- The escrow bucket (state.rs PREFIX_ESCROW), as a keyed map. -/
def Store : Type := String → Option Escrow

/-- state.rs `escrows_read`: point lookup. -/
def escrows_read (store : Store) (id : String) : Option Escrow := store id

/-- state.rs `escrows_save`: unconditional upsert. -/
def escrows_save (store : Store) (escrow : Escrow) (id : String) : Store :=
  fun k => if k = id then some escrow else store k

/-- state.rs `escrows_remove`: unconditional delete. -/
def escrows_remove (store : Store) (id : String) : Store :=
  fun k => if k = id then none else store k

/-- state.rs `escrows_update`: atomic check-then-insert — fails with
IdAlreadyExists when the key is occupied, otherwise writes. -/
def escrows_update (store : Store) (escrow : Escrow) (id : String) :
    Except ContractError Store :=
  match store id with
  | some _ => .error .IdAlreadyExists
  | none => .ok (escrows_save store escrow id)

/-- Checked Uint128 addition: `Uint128::add` panics on overflow (there is no
wrapped result), modelled as `none`. -/
def checkedAddU128 (a b : Nat) : Option Nat :=
  if a + b < u128Limit then some (a + b) else none

/-- One iteration of the native loop of `GenericBalance::add_tokens`: find the
first existing entry with the incoming coin's denom and add into it, else push. -/
def addNativeCoin : List Coin → Coin → Option (List Coin)
  | [], c => some [c]
  | e :: rest, c =>
      if e.denom = c.denom then
        (checkedAddU128 e.amount c.amount).map (fun a => ⟨e.denom, a⟩ :: rest)
      else
        (addNativeCoin rest c).map (e :: ·)

/-- The native branch of `add_tokens`: fold `addNativeCoin` over the incoming
coins in order. -/
def addNativeCoins (l : List Coin) : List Coin → Option (List Coin)
  | [] => some l
  | c :: rest =>
      match addNativeCoin l c with
      | none => none
      | some l' => addNativeCoins l' rest

/-- The cw20 branch of `add_tokens`: find the first entry with the incoming
token's address and add into it, else push. -/
def addCw20Token : List Cw20CoinVerified → Cw20CoinVerified → Option (List Cw20CoinVerified)
  | [], t => some [t]
  | e :: rest, t =>
      if e.address = t.address then
        (checkedAddU128 e.amount t.amount).map (fun a => ⟨e.address, a⟩ :: rest)
      else
        (addCw20Token rest t).map (e :: ·)

/-- state.rs `GenericBalance::add_tokens`; `none` is the fatal overflow of an
amount addition. -/
def GenericBalance.add_tokens (gb : GenericBalance) (add : Balance) :
    Option GenericBalance :=
  match add with
  | .Native coins => (addNativeCoins gb.native coins).map (fun n => ⟨n, gb.cw20⟩)
  | .Cw20 token => (addCw20Token gb.cw20 token).map (fun c => ⟨gb.native, c⟩)

/-- contract.rs `send_tokens`: a BankMsg carrying the whole native collection
(only when non-empty), followed by one cw20 Transfer per cw20 entry in order. -/
def send_tokens (to_address : String) (amount : GenericBalance) : List CosmosMsg :=
  (if amount.native.isEmpty then [] else [.Bank to_address amount.native]) ++
    amount.cw20.map (fun c => .Wasm c.address to_address c.amount)

/-- contract.rs `try_create`. -/
def try_create (store : Store) (msg : CreateMsg) (balance : Balance)
    (sender : String) : Except ContractError (Response × Store) :=
  if balance.is_empty then .error .ZeroBalance
  else
    let escrow_balance : GenericBalance :=
      match balance with
      | .Native coins => ⟨coins, []⟩
      | .Cw20 token => ⟨[], [token]⟩
    let escrow : Escrow :=
      { arbiter := msg.arbiter, recipient := msg.recipient, source := sender,
        end_height := msg.end_height, end_time := msg.end_time,
        balance := escrow_balance }
    match escrows_update store escrow msg.id with
    | .ok store' => .ok (Response.default, store')
    | .error _ => .error .IdAlreadyExists

/-- contract.rs `try_approve`. -/
def try_approve (store : Store) (env : Env) (sender : String) (id : String) :
    Except ContractError (Response × Store) :=
  match escrows_read store id with
  | none => .error .NotFound
  | some escrow =>
      if escrow.arbiter ≠ sender then .error .Unauthorized
      else if escrow.is_expired env then
        .error (.Expired escrow.end_height escrow.end_time)
      else
        .ok (⟨send_tokens escrow.recipient escrow.balance,
              [("action", "approve escrow")]⟩,
             escrows_remove store id)

/-- contract.rs `try_refund` (no expiry check; funds go to `recipient`). -/
def try_refund (store : Store) (sender : String) (id : String) :
    Except ContractError (Response × Store) :=
  match escrows_read store id with
  | none => .error .NotFound
  | some escrow =>
      if sender ≠ escrow.arbiter then .error .Unauthorized
      else
        .ok (⟨send_tokens escrow.recipient escrow.balance,
              [("action", "refund")]⟩,
             escrows_remove store id)

/-- contract.rs `try_top_up`; the overflow panic of `add_tokens` surfaces to
the caller as the fatal arithmetic-overflow failure. -/
def try_top_up (store : Store) (balance : Balance) (id : String) :
    Except ContractError (Response × Store) :=
  if balance.is_empty then .error .ZeroBalance
  else
    match escrows_read store id with
    | none => .error .NotFound
    | some escrow =>
        match escrow.balance.add_tokens balance with
        | none => .error .ArithmeticOverflow
        | some gb =>
            .ok (⟨[], [("action", "top_up")]⟩,
                 escrows_save store { escrow with balance := gb } id)

/-- contract.rs `try_receive`: wraps the sending token contract's address and
the forwarded amount as a cw20 balance and dispatches the decoded payload. -/
def try_receive (store : Store) (info : MessageInfo) (wrapper : Cw20ReceiveMsg) :
    Except ContractError (Response × Store) :=
  match wrapper.msg with
  | .Create msg =>
      try_create store msg (.Cw20 ⟨info.sender, wrapper.amount⟩) wrapper.sender
  | .TopUp id => try_top_up store (.Cw20 ⟨info.sender, wrapper.amount⟩) id

/-- contract.rs `execute`: dispatch. -/
def execute (store : Store) (env : Env) (info : MessageInfo) (msg : ExecuteMsg) :
    Except ContractError (Response × Store) :=
  match msg with
  | .Create m => try_create store m (.Native info.funds) info.sender
  | .Approve id => try_approve store env info.sender id
  | .Refund id => try_refund store info.sender id
  | .TopUp id => try_top_up store (.Native info.funds) id
  | .Receive w => try_receive store info w

/-- The store after one host-dispatched call: on error the transaction is
reverted, leaving the store as it was. -/
def stepStore (store : Store) (r : Except ContractError (Response × Store)) : Store :=
  match r with
  | .ok (_, s) => s
  | .error _ => store

/-- A sequence of host calls applied from a starting store. -/
def applyOps (store : Store) (ops : List (Env × MessageInfo × ExecuteMsg)) : Store :=
  ops.foldl (fun s op => stepStore s (execute s op.1 op.2.1 op.2.2)) store

/-- The store holding no escrows. -/
def emptyStore : Store := fun _ => none

/-- Total amount recorded for denomination `d` in a native collection. -/
def sumDenom (l : List Coin) (d : String) : Nat :=
  (l.map (fun c => if c.denom = d then c.amount else 0)).sum

/-- Repeated native top-up merges into a balance, in sequence order. -/
def applyNativeTopUps : GenericBalance → List (List Coin) → Option GenericBalance
  | gb, [] => some gb
  | gb, t :: rest =>
      match gb.add_tokens (.Native t) with
      | none => none
      | some gb' => applyNativeTopUps gb' rest

/-- The first native entry carrying denomination `d` — the entry
`add_tokens` merges an incoming coin of denom `d` into. -/
def firstNativeMatch (l : List Coin) (d : String) : Option Coin :=
  l.find? (fun e => e.denom = d)

/-- The first cw20 entry carrying token-contract address `a` — the entry
`add_tokens` merges an incoming cw20 amount for `a` into. -/
def firstCw20Match (l : List Cw20CoinVerified) (a : String) :
    Option Cw20CoinVerified :=
  l.find? (fun e => e.address = a)

/-! Sample data used by witnesses. -/

/-- A sample escrow holding one native coin and one cw20 entry, with both
deadlines set. -/
def sampleEscrow : Escrow :=
  { arbiter := "arb", recipient := "rcpt", source := "src",
    end_height := some 1000, end_time := some 2000,
    balance := ⟨[⟨"utoken", 100⟩], [⟨"cwaddr", 40⟩]⟩ }

/-- A sample store holding `sampleEscrow` under id "e1". -/
def sampleStore : Store := fun k => if k = "e1" then some sampleEscrow else none

/-- An escrow whose time deadline (seconds since epoch, Nov 2023) has not
remotely been reached by a clock reading of 10^13 ns (hours after epoch). -/
def prematureEscrow : Escrow :=
  { arbiter := "arb", recipient := "rcpt", source := "src",
    end_height := none, end_time := some 1700000000,
    balance := ⟨[⟨"utoken", 100⟩], []⟩ }

/-- A block context hours after epoch: height 0, time 10^13 ns. -/
def prematureEnv : Env := { height := 0, timeNanos := 10000000000000 }

/-- The record a sample native create stores. -/
def sampleCreated : Escrow :=
  ⟨"a", "r", "alice", none, none, ⟨[⟨"utok", 7⟩], []⟩⟩

/-- Total amount recorded for token-contract address `a` in a cw20
collection. -/
def sumCw20 (l : List Cw20CoinVerified) (a : String) : Nat :=
  (l.map (fun t => if t.address = a then t.amount else 0)).sum

/-- Every record a store holds has a non-empty balance (some collection is
non-empty). -/
def storeInv (store : Store) : Prop :=
  ∀ id e, store id = some e → e.balance.native ≠ [] ∨ e.balance.cw20 ≠ []

/-- An escrow whose stored native and cw20 amounts sit at the Uint128
maximum. -/
def hugeEscrow : Escrow :=
  { arbiter := "arb", recipient := "rcpt", source := "src",
    end_height := none, end_time := none,
    balance := ⟨[⟨"utoken", u128Limit - 1⟩], [⟨"cwaddr", u128Limit - 1⟩]⟩ }

/-- A store holding `hugeEscrow` under id "big". -/
def hugeStore : Store := fun k => if k = "big" then some hugeEscrow else none

/-! Claim theorems. -/

/-- Claim C1 (code bug): `is_expired` scales the seconds-since-epoch deadline
by 1000 while the clock reads nanoseconds, so it reports an escrow with a
Nov-2023 deadline as expired at a clock reading hours after epoch — even
though the current time is far below the deadline expressed at the clock's
nanosecond resolution (`end_time * 10^9`), and the height clause contributes
nothing (`end_height` is absent). -/
theorem expiry_scale_bug :
    prematureEscrow.is_expired prematureEnv = true ∧
    prematureEscrow.end_height = none ∧
    prematureEnv.timeNanos < 1700000000 * 1000000000 := by
  refine ⟨rfl, rfl, by decide⟩

/-- Claim C2: for every store, every id present in the store and every caller
different from the record's arbiter, `try_approve` fails `Unauthorized` —
never `Expired` — regardless of the block height and time. -/
theorem approve_unauthorized (store : Store) (env : Env) (sender id : String)
    (escrow : Escrow) (hid : store id = some escrow)
    (hne : sender ≠ escrow.arbiter) :
    try_approve store env sender id = .error .Unauthorized := by
  unfold try_approve escrows_read
  rw [hid]
  simp [Ne.symm hne]

/-- Witness for C2. -/
theorem approve_unauthorized_witness :
    sampleStore "e1" = some sampleEscrow ∧
    try_approve sampleStore ⟨5000, 5000000000⟩ "mallory" "e1" =
      .error .Unauthorized :=
  ⟨rfl, approve_unauthorized sampleStore ⟨5000, 5000000000⟩ "mallory" "e1"
    sampleEscrow rfl (by decide)⟩

/-- Claim C3: when the arbiter approves an unexpired escrow, the record is
removed from the store and the response carries one native transfer with all
native amounts to the recipient (present iff the native collection is
non-empty) followed by one cw20 transfer per cw20 entry, in order. -/
theorem approve_success_shape (store : Store) (env : Env) (id : String)
    (escrow : Escrow) (hid : store id = some escrow)
    (hexp : escrow.is_expired env = false) :
    try_approve store env escrow.arbiter id =
      .ok (⟨(if escrow.balance.native.isEmpty then [] else
               [CosmosMsg.Bank escrow.recipient escrow.balance.native]) ++
             escrow.balance.cw20.map
               (fun c => CosmosMsg.Wasm c.address escrow.recipient c.amount),
            [("action", "approve escrow")]⟩,
           escrows_remove store id) ∧
    escrows_remove store id id = none ∧
    ∀ k, k ≠ id → escrows_remove store id k = store k := by
  refine ⟨?_, ?_, ?_⟩
  · unfold try_approve escrows_read
    rw [hid]
    simp [hexp, send_tokens]
  · simp [escrows_remove]
  · intro k hk
    simp [escrows_remove, hk]

/-- Witness for C3. -/
theorem approve_success_shape_witness :
    sampleStore "e1" = some sampleEscrow ∧
    sampleEscrow.is_expired ⟨0, 0⟩ = false ∧
    try_approve sampleStore ⟨0, 0⟩ sampleEscrow.arbiter "e1" =
      .ok (⟨(if sampleEscrow.balance.native.isEmpty then [] else
               [CosmosMsg.Bank sampleEscrow.recipient sampleEscrow.balance.native]) ++
             sampleEscrow.balance.cw20.map
               (fun c => CosmosMsg.Wasm c.address sampleEscrow.recipient c.amount),
            [("action", "approve escrow")]⟩,
           escrows_remove sampleStore "e1") :=
  ⟨rfl, rfl, (approve_success_shape sampleStore ⟨0, 0⟩ "e1" sampleEscrow rfl rfl).1⟩

/-- Claim C4: `try_refund` consults no deadline — for any id in the store it
fails `Unauthorized` for a non-arbiter caller, succeeds for the arbiter
whatever the deadlines, removing the record and directing the transfers at
the recipient, and on success emits exactly the messages a successful
`try_approve` would. -/
theorem refund_spec (store : Store) (id : String) (escrow : Escrow)
    (hid : store id = some escrow) :
    (∀ sender, sender ≠ escrow.arbiter →
       try_refund store sender id = .error .Unauthorized) ∧
    try_refund store escrow.arbiter id =
      .ok (⟨send_tokens escrow.recipient escrow.balance, [("action", "refund")]⟩,
           escrows_remove store id) ∧
    ∀ env, escrow.is_expired env = false →
      try_approve store env escrow.arbiter id =
        .ok (⟨send_tokens escrow.recipient escrow.balance,
              [("action", "approve escrow")]⟩,
             escrows_remove store id) := by
  refine ⟨?_, ?_, ?_⟩
  · intro sender hne
    unfold try_refund escrows_read
    rw [hid]
    simp [hne]
  · unfold try_refund escrows_read
    rw [hid]
    simp
  · intro env hexp
    unfold try_approve escrows_read
    rw [hid]
    simp [hexp]

/-- Witness for C4: refund by the arbiter on `sampleEscrow`, whose deadlines
are both long past at any positive height/time. -/
theorem refund_spec_witness :
    sampleStore "e1" = some sampleEscrow ∧
    try_refund sampleStore sampleEscrow.arbiter "e1" =
      .ok (⟨send_tokens sampleEscrow.recipient sampleEscrow.balance,
            [("action", "refund")]⟩,
           escrows_remove sampleStore "e1") :=
  ⟨rfl, (refund_spec sampleStore "e1" sampleEscrow rfl).2.1⟩

/-- Claim C7: create with empty funding fails `ZeroBalance` and the store is
left exactly as it was. -/
theorem create_zero_balance (store : Store) (msg : CreateMsg) (balance : Balance)
    (sender : String) (hempty : balance.is_empty = true) :
    try_create store msg balance sender = .error .ZeroBalance ∧
    stepStore store (try_create store msg balance sender) = store := by
  unfold try_create
  simp [hempty, stepStore]

/-- Witness for C7. -/
theorem create_zero_balance_witness :
    (Balance.Native []).is_empty = true ∧
    try_create sampleStore ⟨"e2", "a", "r", none, none⟩ (.Native []) "alice" =
      .error .ZeroBalance :=
  ⟨rfl, (create_zero_balance sampleStore ⟨"e2", "a", "r", none, none⟩
    (.Native []) "alice" rfl).1⟩

/-- Claim C8: create on an occupied id with non-empty funding fails
`IdAlreadyExists` and the previously stored record under that id is
unchanged. -/
theorem create_duplicate_id (store : Store) (msg : CreateMsg) (balance : Balance)
    (sender : String) (escrow0 : Escrow) (hid : store msg.id = some escrow0)
    (hne : balance.is_empty = false) :
    try_create store msg balance sender = .error .IdAlreadyExists ∧
    stepStore store (try_create store msg balance sender) msg.id = some escrow0 := by
  unfold try_create escrows_update
  rw [hne, hid]
  simp [stepStore, hid]

/-- Witness for C8. -/
theorem create_duplicate_id_witness :
    sampleStore "e1" = some sampleEscrow ∧
    try_create sampleStore ⟨"e1", "a2", "r2", none, none⟩
      (.Native [⟨"x", 5⟩]) "bob" = .error .IdAlreadyExists :=
  ⟨rfl, (create_duplicate_id sampleStore ⟨"e1", "a2", "r2", none, none⟩
    (.Native [⟨"x", 5⟩]) "bob" sampleEscrow rfl rfl).1⟩

/-- Claim C10: a successful create stores exactly one populated asset class —
native funding yields an empty cw20 list, and the cw20 receive path yields
exactly one cw20 entry (the sending token contract's) and an empty native
list. -/
theorem create_single_asset_class :
    (∀ (store : Store) (msg : CreateMsg) (coins : List Coin) (sender : String)
       (resp : Response) (store2 : Store),
       try_create store msg (.Native coins) sender = .ok (resp, store2) →
       store2 msg.id =
         some ⟨msg.arbiter, msg.recipient, sender, msg.end_height,
               msg.end_time, ⟨coins, []⟩⟩) ∧
    (∀ (store : Store) (info : MessageInfo) (wrapper : Cw20ReceiveMsg)
       (msg2 : CreateMsg) (resp : Response) (store2 : Store),
       wrapper.msg = .Create msg2 →
       try_receive store info wrapper = .ok (resp, store2) →
       store2 msg2.id =
         some ⟨msg2.arbiter, msg2.recipient, wrapper.sender, msg2.end_height,
               msg2.end_time, ⟨[], [⟨info.sender, wrapper.amount⟩]⟩⟩) := by
  constructor
  · intro store msg coins sender resp store2 h
    unfold try_create escrows_update at h
    by_cases hb : (Balance.Native coins).is_empty = true
    · rw [hb] at h
      simp at h
    · rw [Bool.of_not_eq_true hb] at h
      cases hm : store msg.id with
      | some e0 => rw [hm] at h; simp at h
      | none =>
          rw [hm] at h
          simp at h
          rw [← h.2]
          simp [escrows_save]
  · intro store info wrapper msg2 resp store2 hw h
    simp only [try_receive, hw] at h
    unfold try_create escrows_update at h
    by_cases hb : (Balance.Cw20 ⟨info.sender, wrapper.amount⟩).is_empty = true
    · rw [hb] at h
      simp at h
    · rw [Bool.of_not_eq_true hb] at h
      cases hm : store msg2.id with
      | some e0 => rw [hm] at h; simp at h
      | none =>
          rw [hm] at h
          simp at h
          rw [← h.2]
          simp [escrows_save]

/-- Witness for C10: a native create into the empty store. -/
theorem create_single_asset_class_witness :
    (escrows_save emptyStore sampleCreated "e3") "e3" = some sampleCreated :=
  create_single_asset_class.1 emptyStore ⟨"e3", "a", "r", none, none⟩
    [⟨"utok", 7⟩] "alice" Response.default
    (escrows_save emptyStore sampleCreated "e3") rfl

/-! Helper lemmas on balance merging. -/

/-- Merging one coin adds its amount to the total of its denomination and
leaves every other denomination's total unchanged. -/
theorem addNativeCoin_sumDenom {l l' : List Coin} {c : Coin}
    (h : addNativeCoin l c = some l') (d : String) :
    sumDenom l' d = sumDenom l d + (if c.denom = d then c.amount else 0) := by
  induction l generalizing l' with
  | nil =>
      simp only [addNativeCoin, Option.some.injEq] at h
      subst h
      simp [sumDenom]
  | cons e rest ih =>
      simp only [addNativeCoin] at h
      by_cases he : e.denom = c.denom
      · rw [if_pos he] at h
        unfold checkedAddU128 at h
        by_cases hov : e.amount + c.amount < u128Limit
        · rw [if_pos hov] at h
          simp only [Option.map_some', Option.some.injEq] at h
          subst h
          by_cases hd : e.denom = d
          · have hcd : c.denom = d := he ▸ hd
            simp [sumDenom, hd, hcd]
            omega
          · have hcd : ¬ c.denom = d := fun hc => hd (he.trans hc)
            simp [sumDenom, hd, hcd]
        · rw [if_neg hov] at h
          simp at h
      · rw [if_neg he] at h
        cases hr : addNativeCoin rest c with
        | none => rw [hr] at h; simp at h
        | some r =>
            rw [hr] at h
            simp only [Option.map_some', Option.some.injEq] at h
            subst h
            have := ih hr
            simp only [sumDenom, List.map_cons, List.sum_cons] at this ⊢
            omega

/-- Merging a list of coins adds, per denomination, the incoming total. -/
theorem addNativeCoins_sumDenom {l l' : List Coin} {coins : List Coin}
    (h : addNativeCoins l coins = some l') (d : String) :
    sumDenom l' d = sumDenom l d + sumDenom coins d := by
  induction coins generalizing l with
  | nil =>
      simp only [addNativeCoins, Option.some.injEq] at h
      subst h
      simp [sumDenom]
  | cons c rest ih =>
      simp only [addNativeCoins] at h
      cases hc : addNativeCoin l c with
      | none => rw [hc] at h; simp at h
      | some l1 =>
          rw [hc] at h
          have h1 := addNativeCoin_sumDenom hc d
          have h2 := ih h
          simp only [sumDenom, List.map_cons, List.sum_cons] at h1 h2 ⊢
          omega

/-- Merging one cw20 token adds its amount to the total of its address and
leaves every other address's total unchanged. -/
theorem addCw20Token_sumCw20 {l l' : List Cw20CoinVerified}
    {t : Cw20CoinVerified} (h : addCw20Token l t = some l') (a : String) :
    sumCw20 l' a = sumCw20 l a + (if t.address = a then t.amount else 0) := by
  induction l generalizing l' with
  | nil =>
      simp only [addCw20Token, Option.some.injEq] at h
      subst h
      simp [sumCw20]
  | cons e rest ih =>
      simp only [addCw20Token] at h
      by_cases he : e.address = t.address
      · rw [if_pos he] at h
        unfold checkedAddU128 at h
        by_cases hov : e.amount + t.amount < u128Limit
        · rw [if_pos hov] at h
          simp only [Option.map_some', Option.some.injEq] at h
          subst h
          by_cases hd : e.address = a
          · have htd : t.address = a := he ▸ hd
            simp [sumCw20, hd, htd]
            omega
          · have htd : ¬ t.address = a := fun hc => hd (he.trans hc)
            simp [sumCw20, hd, htd]
        · rw [if_neg hov] at h
          simp at h
      · rw [if_neg he] at h
        cases hr : addCw20Token rest t with
        | none => rw [hr] at h; simp at h
        | some r =>
            rw [hr] at h
            simp only [Option.map_some', Option.some.injEq] at h
            subst h
            have := ih hr
            simp only [sumCw20, List.map_cons, List.sum_cons] at this ⊢
            omega

/-- When the first entry holding the incoming coin's denomination cannot
absorb the amount without exceeding the Uint128 bound, the merge is the
fatal overflow. -/
theorem addNativeCoin_overflow {l : List Coin} {c e : Coin}
    (hf : firstNativeMatch l c.denom = some e)
    (hov : u128Limit ≤ e.amount + c.amount) :
    addNativeCoin l c = none := by
  induction l with
  | nil => simp [firstNativeMatch] at hf
  | cons x rest ih =>
      unfold firstNativeMatch at hf
      by_cases hx : x.denom = c.denom
      · rw [List.find?_cons_of_pos _ (by simp [hx])] at hf
        simp only [Option.some.injEq] at hf
        subst hf
        simp [addNativeCoin, hx, checkedAddU128, Nat.not_lt.mpr hov]
      · rw [List.find?_cons_of_neg _ (by simp [hx])] at hf
        have := ih hf
        simp [addNativeCoin, hx, this]

/-- When the first entry holding the incoming token's contract address cannot
absorb the amount without exceeding the Uint128 bound, the merge is the
fatal overflow. -/
theorem addCw20Token_overflow {l : List Cw20CoinVerified}
    {t e : Cw20CoinVerified}
    (hf : firstCw20Match l t.address = some e)
    (hov : u128Limit ≤ e.amount + t.amount) :
    addCw20Token l t = none := by
  induction l with
  | nil => simp [firstCw20Match] at hf
  | cons x rest ih =>
      unfold firstCw20Match at hf
      by_cases hx : x.address = t.address
      · rw [List.find?_cons_of_pos _ (by simp [hx])] at hf
        simp only [Option.some.injEq] at hf
        subst hf
        simp [addCw20Token, hx, checkedAddU128, Nat.not_lt.mpr hov]
      · rw [List.find?_cons_of_neg _ (by simp [hx])] at hf
        have := ih hf
        simp [addCw20Token, hx, this]

/-- A sequence of native top-up merges accumulates, per denomination, the
total of the incoming amounts. -/
theorem applyNativeTopUps_sumDenom {gb out : GenericBalance}
    {ts : List (List Coin)} (h : applyNativeTopUps gb ts = some out)
    (d : String) :
    sumDenom out.native d =
      sumDenom gb.native d + (ts.map (fun t => sumDenom t d)).sum := by
  induction ts generalizing gb with
  | nil =>
      simp only [applyNativeTopUps, Option.some.injEq] at h
      subst h
      simp
  | cons t rest ih =>
      simp only [applyNativeTopUps] at h
      cases ht : gb.add_tokens (.Native t) with
      | none => rw [ht] at h; simp at h
      | some gb1 =>
          rw [ht] at h
          have h2 := ih h
          simp only [GenericBalance.add_tokens] at ht
          cases hn : addNativeCoins gb.native t with
          | none => rw [hn] at ht; simp at ht
          | some n =>
              rw [hn] at ht
              simp only [Option.map_some', Option.some.injEq] at ht
              have h1 := addNativeCoins_sumDenom hn d
              rw [← ht] at h2
              simp only [List.map_cons, List.sum_cons] at h2 ⊢
              rw [h2]
              omega

/-- Claim C5: the stored balance a sequence of native top-ups produces
records, for each denomination, the initial amount plus the total of all
topped-up amounts for that denomination, independent of the order the
top-ups are applied in — and a successful `try_top_up` stores exactly the
`add_tokens` merge of the record's balance. -/
theorem top_up_order_independent :
    (∀ (store : Store) (id : String) (escrow : Escrow) (coins : List Coin)
       (resp : Response) (store2 : Store),
       store id = some escrow →
       try_top_up store (.Native coins) id = .ok (resp, store2) →
       ∃ gb, escrow.balance.add_tokens (.Native coins) = some gb ∧
         store2 id = some { escrow with balance := gb }) ∧
    (∀ (gb : GenericBalance) (ts1 ts2 : List (List Coin))
       (out1 out2 : GenericBalance),
       ts1.Perm ts2 →
       applyNativeTopUps gb ts1 = some out1 →
       applyNativeTopUps gb ts2 = some out2 →
       ∀ d, sumDenom out1.native d =
              sumDenom gb.native d + (ts1.map (fun t => sumDenom t d)).sum ∧
            sumDenom out2.native d = sumDenom out1.native d) := by
  constructor
  · intro store id escrow coins resp store2 hid h
    unfold try_top_up escrows_read at h
    by_cases hb : (Balance.Native coins).is_empty = true
    · rw [hb] at h; simp at h
    · rw [Bool.of_not_eq_true hb, hid] at h
      simp only [Bool.false_eq_true, if_false] at h
      cases ht : escrow.balance.add_tokens (.Native coins) with
      | none => rw [ht] at h; simp at h
      | some gb =>
          rw [ht] at h
          simp only [Except.ok.injEq, Prod.mk.injEq] at h
          refine ⟨gb, rfl, ?_⟩
          rw [← h.2]
          simp [escrows_save]
  · intro gb ts1 ts2 out1 out2 hperm h1 h2 d
    have e1 := applyNativeTopUps_sumDenom h1 d
    have e2 := applyNativeTopUps_sumDenom h2 d
    have hsum : (ts1.map (fun t => sumDenom t d)).sum =
        (ts2.map (fun t => sumDenom t d)).sum :=
      (hperm.map (fun t => sumDenom t d)).sum_eq
    exact ⟨e1, by rw [e1, e2, hsum]⟩

/-- Witness for C5: two permuted top-up sequences on a one-coin balance. -/
theorem top_up_order_independent_witness :
    ([[Coin.mk "b" 2], [Coin.mk "a" 3]] : List (List Coin)).Perm
      [[Coin.mk "a" 3], [Coin.mk "b" 2]] ∧
    applyNativeTopUps ⟨[⟨"a", 1⟩], []⟩ [[⟨"b", 2⟩], [⟨"a", 3⟩]] =
      some ⟨[⟨"a", 4⟩, ⟨"b", 2⟩], []⟩ ∧
    applyNativeTopUps ⟨[⟨"a", 1⟩], []⟩ [[⟨"a", 3⟩], [⟨"b", 2⟩]] =
      some ⟨[⟨"a", 4⟩, ⟨"b", 2⟩], []⟩ ∧
    sumDenom [⟨"a", 4⟩, ⟨"b", 2⟩] "a" = sumDenom [⟨"a", 1⟩] "a" +
      (([[Coin.mk "b" 2], [Coin.mk "a" 3]]).map (fun t => sumDenom t "a")).sum :=
  ⟨by decide, by decide, by decide,
   ((top_up_order_independent.2 ⟨[⟨"a", 1⟩], []⟩
      [[⟨"b", 2⟩], [⟨"a", 3⟩]] [[⟨"a", 3⟩], [⟨"b", 2⟩]]
      ⟨[⟨"a", 4⟩, ⟨"b", 2⟩], []⟩ ⟨[⟨"a", 4⟩, ⟨"b", 2⟩], []⟩
      (by decide) (by decide) (by decide)) "a").1⟩

/-- Claim C6: amount addition in balance merging is overflow-checked — an
addition for the same denomination or the same token-contract identifier
that would exceed the Uint128 bound makes `try_top_up` fail with the fatal
arithmetic-overflow error, and a merge that succeeds records exact (never
wrapped) per-key sums. -/
theorem add_tokens_overflow_checked :
    (∀ (store : Store) (id : String) (escrow : Escrow) (c e : Coin),
       store id = some escrow → c.amount ≠ 0 →
       firstNativeMatch escrow.balance.native c.denom = some e →
       u128Limit ≤ e.amount + c.amount →
       try_top_up store (.Native [c]) id = .error .ArithmeticOverflow) ∧
    (∀ (store : Store) (id : String) (escrow : Escrow)
       (t e : Cw20CoinVerified),
       store id = some escrow → t.amount ≠ 0 →
       firstCw20Match escrow.balance.cw20 t.address = some e →
       u128Limit ≤ e.amount + t.amount →
       try_top_up store (.Cw20 t) id = .error .ArithmeticOverflow) ∧
    (∀ (gb gb' : GenericBalance) (coins : List Coin),
       gb.add_tokens (.Native coins) = some gb' →
       ∀ d, sumDenom gb'.native d = sumDenom gb.native d + sumDenom coins d) ∧
    (∀ (gb gb' : GenericBalance) (t : Cw20CoinVerified),
       gb.add_tokens (.Cw20 t) = some gb' →
       sumCw20 gb'.cw20 t.address = sumCw20 gb.cw20 t.address + t.amount) := by
  refine ⟨?_, ?_, ?_, ?_⟩
  · intro store id escrow c e hid hc0 hf hov
    unfold try_top_up escrows_read
    have hne : (Balance.Native [c]).is_empty = false := by
      simp [Balance.is_empty, hc0]
    rw [hne]
    rw [hid]
    have hnone := addNativeCoin_overflow hf hov
    simp [GenericBalance.add_tokens, addNativeCoins, hnone]
  · intro store id escrow t e hid ht0 hf hov
    unfold try_top_up escrows_read
    have hne : (Balance.Cw20 t).is_empty = false := by
      simp [Balance.is_empty, ht0]
    rw [hne]
    rw [hid]
    have hnone := addCw20Token_overflow hf hov
    simp [GenericBalance.add_tokens, hnone]
  · intro gb gb' coins h
    intro d
    simp only [GenericBalance.add_tokens] at h
    cases hn : addNativeCoins gb.native coins with
    | none => rw [hn] at h; simp at h
    | some n =>
        rw [hn] at h
        simp only [Option.map_some', Option.some.injEq] at h
        rw [← h]
        exact addNativeCoins_sumDenom hn d
  · intro gb gb' t h
    simp only [GenericBalance.add_tokens] at h
    cases hn : addCw20Token gb.cw20 t with
    | none => rw [hn] at h; simp at h
    | some n =>
        rw [hn] at h
        simp only [Option.map_some', Option.some.injEq] at h
        rw [← h]
        have := addCw20Token_sumCw20 hn t.address
        simpa using this

/-- Witness for C6: topping one more unit onto a Uint128-maximal amount is
the fatal overflow, on the native and on the cw20 side. -/
theorem add_tokens_overflow_checked_witness :
    hugeStore "big" = some hugeEscrow ∧
    try_top_up hugeStore (.Native [⟨"utoken", 1⟩]) "big" =
      .error .ArithmeticOverflow ∧
    try_top_up hugeStore (.Cw20 ⟨"cwaddr", 1⟩) "big" =
      .error .ArithmeticOverflow :=
  ⟨rfl,
   add_tokens_overflow_checked.1 hugeStore "big" hugeEscrow
     ⟨"utoken", 1⟩ ⟨"utoken", u128Limit - 1⟩ rfl (by decide) (by decide)
     (by decide),
   add_tokens_overflow_checked.2.1 hugeStore "big" hugeEscrow
     ⟨"cwaddr", 1⟩ ⟨"cwaddr", u128Limit - 1⟩ rfl (by decide) (by decide)
     (by decide)⟩

/-! Helper lemmas for the store invariant. -/

/-- Merging one coin never shrinks the native collection. -/
theorem addNativeCoin_length {l l' : List Coin} {c : Coin}
    (h : addNativeCoin l c = some l') : l.length ≤ l'.length := by
  induction l generalizing l' with
  | nil =>
      simp only [addNativeCoin, Option.some.injEq] at h
      subst h
      simp
  | cons e rest ih =>
      simp only [addNativeCoin] at h
      by_cases he : e.denom = c.denom
      · rw [if_pos he] at h
        unfold checkedAddU128 at h
        by_cases hov : e.amount + c.amount < u128Limit
        · rw [if_pos hov] at h
          simp only [Option.map_some', Option.some.injEq] at h
          subst h
          simp
        · rw [if_neg hov] at h
          simp at h
      · rw [if_neg he] at h
        cases hr : addNativeCoin rest c with
        | none => rw [hr] at h; simp at h
        | some r =>
            rw [hr] at h
            simp only [Option.map_some', Option.some.injEq] at h
            subst h
            have := ih hr
            simp only [List.length_cons]
            omega

/-- Merging a list of coins never shrinks the native collection. -/
theorem addNativeCoins_length {l l' : List Coin} {coins : List Coin}
    (h : addNativeCoins l coins = some l') : l.length ≤ l'.length := by
  induction coins generalizing l with
  | nil =>
      simp only [addNativeCoins, Option.some.injEq] at h
      subst h
      exact le_refl _
  | cons c rest ih =>
      simp only [addNativeCoins] at h
      cases hc : addNativeCoin l c with
      | none => rw [hc] at h; simp at h
      | some l1 =>
          rw [hc] at h
          exact le_trans (addNativeCoin_length hc) (ih h)

/-- Merging one cw20 token never shrinks the cw20 collection. -/
theorem addCw20Token_length {l l' : List Cw20CoinVerified} {t : Cw20CoinVerified}
    (h : addCw20Token l t = some l') : l.length ≤ l'.length := by
  induction l generalizing l' with
  | nil =>
      simp only [addCw20Token, Option.some.injEq] at h
      subst h
      simp
  | cons e rest ih =>
      simp only [addCw20Token] at h
      by_cases he : e.address = t.address
      · rw [if_pos he] at h
        unfold checkedAddU128 at h
        by_cases hov : e.amount + t.amount < u128Limit
        · rw [if_pos hov] at h
          simp only [Option.map_some', Option.some.injEq] at h
          subst h
          simp
        · rw [if_neg hov] at h
          simp at h
      · rw [if_neg he] at h
        cases hr : addCw20Token rest t with
        | none => rw [hr] at h; simp at h
        | some r =>
            rw [hr] at h
            simp only [Option.map_some', Option.some.injEq] at h
            subst h
            have := ih hr
            simp only [List.length_cons]
            omega

/-- A successful merge keeps a non-empty balance non-empty. -/
theorem add_tokens_keeps_nonempty {gb gb' : GenericBalance} {b : Balance}
    (h : gb.add_tokens b = some gb')
    (hne : gb.native ≠ [] ∨ gb.cw20 ≠ []) :
    gb'.native ≠ [] ∨ gb'.cw20 ≠ [] := by
  cases b with
  | Native coins =>
      simp only [GenericBalance.add_tokens] at h
      cases hn : addNativeCoins gb.native coins with
      | none => rw [hn] at h; simp at h
      | some n =>
          rw [hn] at h
          simp only [Option.map_some', Option.some.injEq] at h
          subst h
          rcases hne with h1 | h2
          · left
            have hlen := addNativeCoins_length hn
            have hpos : 0 < gb.native.length := List.length_pos.mpr h1
            exact List.length_pos.mp (lt_of_lt_of_le hpos hlen)
          · right
            exact h2
  | Cw20 t =>
      simp only [GenericBalance.add_tokens] at h
      cases hn : addCw20Token gb.cw20 t with
      | none => rw [hn] at h; simp at h
      | some n =>
          rw [hn] at h
          simp only [Option.map_some', Option.some.injEq] at h
          subst h
          rcases hne with h1 | h2
          · left
            exact h1
          · right
            have hlen := addCw20Token_length hn
            have hpos : 0 < gb.cw20.length := List.length_pos.mpr h2
            exact List.length_pos.mp (lt_of_lt_of_le hpos hlen)

/-- The empty store satisfies the invariant. -/
theorem storeInv_empty : storeInv emptyStore := by
  intro id e h
  simp [emptyStore] at h

/-- Saving a record with a non-empty balance preserves the invariant. -/
theorem storeInv_save {store : Store} {esc : Escrow} {id : String}
    (hs : storeInv store)
    (he : esc.balance.native ≠ [] ∨ esc.balance.cw20 ≠ []) :
    storeInv (escrows_save store esc id) := by
  intro k e hk
  simp only [escrows_save] at hk
  by_cases h : k = id
  · rw [if_pos h] at hk
    exact (Option.some.inj hk) ▸ he
  · rw [if_neg h] at hk
    exact hs k e hk

/-- Removing a record preserves the invariant. -/
theorem storeInv_remove {store : Store} {id : String} (hs : storeInv store) :
    storeInv (escrows_remove store id) := by
  intro k e hk
  simp only [escrows_remove] at hk
  by_cases h : k = id
  · rw [if_pos h] at hk
    simp at hk
  · rw [if_neg h] at hk
    exact hs k e hk

/-- A successful create writes a record with a non-empty balance. -/
theorem try_create_inv {store : Store} {msg : CreateMsg} {b : Balance}
    {sender : String} {resp : Response} {store2 : Store}
    (hs : storeInv store)
    (h : try_create store msg b sender = .ok (resp, store2)) :
    storeInv store2 := by
  cases b with
  | Native coins =>
      unfold try_create escrows_update at h
      by_cases hb : (Balance.Native coins).is_empty = true
      · rw [hb] at h; simp at h
      · rw [Bool.of_not_eq_true hb] at h
        simp only [Bool.false_eq_true, if_false] at h
        cases hm : store msg.id with
        | some e0 => rw [hm] at h; simp at h
        | none =>
            rw [hm] at h
            simp only [Except.ok.injEq, Prod.mk.injEq] at h
            rw [← h.2]
            refine storeInv_save hs (Or.inl ?_)
            intro hcon
            exact hb (by simp [Balance.is_empty, show coins = [] from hcon])
  | Cw20 t =>
      unfold try_create escrows_update at h
      by_cases hb : (Balance.Cw20 t).is_empty = true
      · rw [hb] at h; simp at h
      · rw [Bool.of_not_eq_true hb] at h
        simp only [Bool.false_eq_true, if_false] at h
        cases hm : store msg.id with
        | some e0 => rw [hm] at h; simp at h
        | none =>
            rw [hm] at h
            simp only [Except.ok.injEq, Prod.mk.injEq] at h
            rw [← h.2]
            exact storeInv_save hs (Or.inr (by simp))

/-- A successful top-up keeps every stored balance non-empty. -/
theorem try_top_up_inv {store : Store} {b : Balance} {id : String}
    {resp : Response} {store2 : Store}
    (hs : storeInv store)
    (h : try_top_up store b id = .ok (resp, store2)) :
    storeInv store2 := by
  unfold try_top_up escrows_read at h
  by_cases hb : b.is_empty = true
  · rw [hb] at h; simp at h
  · cases hm : store id with
    | none => rw [Bool.of_not_eq_true hb, hm] at h; simp at h
    | some escrow =>
        rw [Bool.of_not_eq_true hb, hm] at h
        simp only [Bool.false_eq_true, if_false] at h
        cases ht : escrow.balance.add_tokens b with
        | none => rw [ht] at h; simp at h
        | some gb =>
            rw [ht] at h
            simp only [Except.ok.injEq, Prod.mk.injEq] at h
            rw [← h.2]
            exact storeInv_save hs (add_tokens_keeps_nonempty ht (hs id escrow hm))

/-- A successful approve leaves exactly the store with the record removed. -/
theorem try_approve_store {store : Store} {env : Env} {sender id : String}
    {resp : Response} {store2 : Store}
    (h : try_approve store env sender id = .ok (resp, store2)) :
    store2 = escrows_remove store id := by
  unfold try_approve escrows_read at h
  cases hm : store id with
  | none => rw [hm] at h; simp at h
  | some escrow =>
      rw [hm] at h
      simp only at h
      by_cases ha : escrow.arbiter ≠ sender
      · rw [if_pos ha] at h; simp at h
      · rw [if_neg ha] at h
        by_cases he : escrow.is_expired env = true
        · rw [he] at h; simp at h
        · rw [Bool.of_not_eq_true he] at h
          simp only [Bool.false_eq_true, if_false, Except.ok.injEq,
            Prod.mk.injEq] at h
          exact h.2.symm

/-- A successful refund leaves exactly the store with the record removed. -/
theorem try_refund_store {store : Store} {sender id : String}
    {resp : Response} {store2 : Store}
    (h : try_refund store sender id = .ok (resp, store2)) :
    store2 = escrows_remove store id := by
  unfold try_refund escrows_read at h
  cases hm : store id with
  | none => rw [hm] at h; simp at h
  | some escrow =>
      rw [hm] at h
      simp only at h
      by_cases ha : sender ≠ escrow.arbiter
      · rw [if_pos ha] at h; simp at h
      · rw [if_neg ha] at h
        simp only [Except.ok.injEq, Prod.mk.injEq] at h
        exact h.2.symm

/-- Every successful entry-point call preserves the store invariant. -/
theorem execute_inv {store : Store} {env : Env} {info : MessageInfo}
    {msg : ExecuteMsg} {resp : Response} {store2 : Store}
    (hs : storeInv store)
    (h : execute store env info msg = .ok (resp, store2)) :
    storeInv store2 := by
  cases msg with
  | Create m =>
      simp only [execute] at h
      exact try_create_inv hs h
  | Approve id =>
      simp only [execute] at h
      rw [try_approve_store h]
      exact storeInv_remove hs
  | Refund id =>
      simp only [execute] at h
      rw [try_refund_store h]
      exact storeInv_remove hs
  | TopUp id =>
      simp only [execute] at h
      exact try_top_up_inv hs h
  | Receive w =>
      simp only [execute] at h
      cases hw : w.msg with
      | Create m2 =>
          simp only [try_receive, hw] at h
          exact try_create_inv hs h
      | TopUp id =>
          simp only [try_receive, hw] at h
          exact try_top_up_inv hs h

/-- A sequence of entry-point calls preserves the store invariant. -/
theorem storeInv_applyOps {store : Store} (hs : storeInv store)
    (ops : List (Env × MessageInfo × ExecuteMsg)) :
    storeInv (applyOps store ops) := by
  induction ops generalizing store with
  | nil => exact hs
  | cons op rest ih =>
      show storeInv
        (applyOps (stepStore store (execute store op.1 op.2.1 op.2.2)) rest)
      cases hr : execute store op.1 op.2.1 op.2.2 with
      | error err => exact ih hs
      | ok p =>
          cases p with
          | mk resp s2 => exact ih (execute_inv hs hr)

/-- Claim C9: every store reachable from the empty store by any sequence of
entry-point calls (create, top-up, approve, refund, including the cw20
receive paths) holds only records whose balance has a non-empty native or
cw20 collection. -/
theorem reachable_nonempty_balances :
    ∀ (ops : List (Env × MessageInfo × ExecuteMsg)) (id : String) (e : Escrow),
      applyOps emptyStore ops id = some e →
      e.balance.native ≠ [] ∨ e.balance.cw20 ≠ [] :=
  fun ops id e h => storeInv_applyOps storeInv_empty ops id e h

/-- Witness for C9: one native create reaching a store with a record. -/
theorem reachable_nonempty_balances_witness :
    applyOps emptyStore
      [(⟨0, 0⟩, ⟨"alice", [⟨"utok", 7⟩]⟩, .Create ⟨"e3", "a", "r", none, none⟩)]
      "e3" = some sampleCreated ∧
    (sampleCreated.balance.native ≠ [] ∨ sampleCreated.balance.cw20 ≠ []) :=
  ⟨by decide,
   reachable_nonempty_balances
     [(⟨0, 0⟩, ⟨"alice", [⟨"utok", 7⟩]⟩, .Create ⟨"e3", "a", "r", none, none⟩)]
     "e3" sampleCreated (by decide)⟩

end EscrowContract
